import Mathlib

/-!
Shallow embedding of the Diamond upgradeable-dispatch component
(`contracts/upgradability/diamond/diamond.rs`): the `DiamondData` route
table, the batch-update algorithm `_diamond_cut` with its helpers
`_handle_replace_immutable`, `_remove_facet` and `_remove_selectors`, and
the dispatch entry point `_fallback`.

Modelling conventions:
* `Selector` (4-byte function selector) and `Hash` (32-byte code hash) are
  opaque equality-comparable identifiers; they are modelled as `Nat`.
* `ink_storage::Mapping` is modelled as a function into `Option`; `insert`
  and `remove` are pointwise function updates applied immediately, exactly
  as the source mutates storage in place.
* A Rust method on `&mut self` that returns `Err` leaves all mutations it
  already performed in place; hence the error outcome carries a post-state.
* A Rust panic (`unwrap` on `None`) aborts execution with no observable
  post-state; it is the `trap` outcome.
* The hook trait `DiamondCut` (`_on_add_facet` / `_on_remove_facet`) has
  empty default bodies; to reason about how often the hooks are invoked,
  every call site appends an event to the `events` trace field.
  `_emit_diamond_cut_event` is likewise a default no-op and adds no event.
-/

namespace Diamond

/-- Function selector: opaque fixed-width identifier (`[u8; 4]` in ink). -/
abbrev Selector := Nat

/-- Code hash identifying a deployed facet (`Hash`, 32 bytes in ink). -/
abbrev Hash := Nat

/-- `FacetCut { hash: Hash, selectors: Vec<Selector> }` from the diamond
trait declarations, as used by `_diamond_cut`. -/
structure FacetCut where
  hash : Hash
  selectors : List Selector
deriving DecidableEq

/-- `InitCall { hash, selector, input }`: one-shot delegated init call. -/
structure InitCall where
  hash : Hash
  selector : Selector
  input : List Nat
deriving DecidableEq

/-- `DiamondError`: the two error variants raised by the cut engine. -/
inductive DiamondError where
  | ReplaceExisting (hash : Hash)
  | ImmutableFunction
deriving DecidableEq

/-- Trace of hook invocations (`DiamondCut` trait call sites). -/
inductive DiamondEvent where
  | onAddFacet (hash : Hash)
  | onRemoveFacet (hash : Hash)
deriving DecidableEq

/-- `DiamondData`: the persistent route table, plus the hook-invocation
trace used to observe `_on_add_facet` / `_on_remove_facet` calls. -/
structure DiamondData where
  selector_to_hash : Selector → Option Hash
  hash_to_selectors : Hash → Option (List Selector)
  self_hash : Hash
  events : List DiamondEvent

/-- Outcome of a `_diamond_cut` call. `err` carries the state as mutated
so far (Rust `return Err` performs no rollback); `trap` is a panic, after
which no state is observable; `tailInit` is the non-returning delegated
init call performed after a successful batch when `init` is present. -/
inductive CutOutcome where
  | ok (s : DiamondData)
  | err (e : DiamondError) (s : DiamondData)
  | trap
  | tailInit (call : InitCall) (s : DiamondData)

/-- State carried by an outcome, with default `d` for `trap`. -/
def CutOutcome.stateD (o : CutOutcome) (d : DiamondData) : DiamondData :=
  match o with
  | .ok s => s
  | .err _ s => s
  | .trap => d
  | .tailInit _ s => s

/-- The error carried by an outcome, if any. -/
def CutOutcome.errOf (o : CutOutcome) : Option DiamondError :=
  match o with
  | .err e _ => some e
  | _ => none

/-- Whether the outcome is a successful (`Ok`) return. -/
def CutOutcome.isOk (o : CutOutcome) : Bool :=
  match o with
  | .ok _ => true
  | _ => false

/-- Whether the outcome is a panic. -/
def CutOutcome.isTrap (o : CutOutcome) : Bool :=
  match o with
  | .trap => true
  | _ => false

/-- Whether the outcome is a normal return (`Ok` or `Err`), i.e. neither a
panic nor a non-returning init tail call. -/
def CutOutcome.normal (o : CutOutcome) : Bool :=
  match o with
  | .ok _ => true
  | .err _ _ => true
  | _ => false

/-- `_handle_replace_immutable`: reject any cut targeting the own code hash
of the diamond. -/
def handle_replace_immutable (s : DiamondData) (hash : Hash) : Option DiamondError :=
  if hash = s.self_hash then some .ImmutableFunction else none

/-- One step of the removal loop in `_remove_facet`:
`selector_to_hash.remove(&old_selector)`. -/
def remove_selector_step (acc : DiamondData) (old_selector : Selector) : DiamondData :=
  { acc with selector_to_hash := fun x => if x = old_selector then none else acc.selector_to_hash x }

/-- Body of `_remove_facet` once the stored selector vector `vec` has been
obtained: unbind each selector of `vec`, drop the `hash_to_selectors`
entry, and invoke the `_on_remove_facet` hook. -/
def remove_facet_post (s : DiamondData) (code_hash : Hash) (vec : List Selector) : DiamondData :=
  let s1 := vec.foldl remove_selector_step s
  let s2 := { s1 with hash_to_selectors := fun h => if h = code_hash then none else s1.hash_to_selectors h }
  { s2 with events := s2.events ++ [.onRemoveFacet code_hash] }

/-- `_remove_facet`: `hash_to_selectors.get(&code_hash).unwrap()` panics
(`none` here) when the facet is unregistered; otherwise proceed with
`remove_facet_post`. -/
def remove_facet (s : DiamondData) (code_hash : Hash) : Option DiamondData :=
  match s.hash_to_selectors code_hash with
  | none => none
  | some vec => some (remove_facet_post s code_hash vec)

/-- One step of the loop in `_remove_selectors`: unbind `selector` unless
it occurs in the new selector list of the cut. -/
def remove_unused_step (facet_cut : FacetCut) (acc : DiamondData) (selector : Selector) : DiamondData :=
  if selector ∈ facet_cut.selectors then acc
  else { acc with selector_to_hash := fun x => if x = selector then none else acc.selector_to_hash x }

/-- `_remove_selectors`: reads `hash_to_selectors.get(&facet_cut.hash)`
(panicking via `unwrap` when absent — `none` here) and unbinds every
selector of that stored list that is not in `facet_cut.selectors`. -/
def remove_selectors (s : DiamondData) (facet_cut : FacetCut) : Option DiamondData :=
  match s.hash_to_selectors facet_cut.hash with
  | none => none
  | some selectors => some (selectors.foldl (remove_unused_step facet_cut) s)

/-- Result of the per-selector registration loop of `_diamond_cut`
(lines 106-121): it either finishes or returns `Err(ReplaceExisting)`,
carrying the state as mutated so far in both cases. -/
inductive BindResult where
  | ok (s : DiamondData)
  | err (e : DiamondError) (s : DiamondData)

/-- The state carried by a `BindResult`. -/
def BindResult.state (r : BindResult) : DiamondData :=
  match r with
  | .ok s => s
  | .err _ s => s

/-- The per-selector loop of `_diamond_cut`: a selector already mapped to
`code_hash` is skipped; one mapped to another hash aborts with
`ReplaceExisting`; an unmapped one is inserted. -/
def bind_selectors (code_hash : Hash) : DiamondData → List Selector → BindResult
  | s, [] => .ok s
  | s, selector :: rest =>
    match s.selector_to_hash selector with
    | some h =>
      if h = code_hash then bind_selectors code_hash s rest
      else .err (.ReplaceExisting h) s
    | none =>
      bind_selectors code_hash
        { s with selector_to_hash := fun x => if x = selector then some code_hash else s.selector_to_hash x }
        rest

/-- Lines 123-129 of `_diamond_cut` after the selector loop succeeded with
state `s1`: invoke the `_on_add_facet` hook when the facet had no
`hash_to_selectors` entry, then overwrite that entry with the new selector
list of the cut. -/
def register_post (s1 : DiamondData) (facet_cut : FacetCut) : DiamondData :=
  let code_hash := facet_cut.hash
  let s2 := if (s1.hash_to_selectors code_hash).isNone
    then { s1 with events := s1.events ++ [.onAddFacet code_hash] }
    else s1
  { s2 with hash_to_selectors := fun h => if h = code_hash then some facet_cut.selectors else s2.hash_to_selectors h }

/-- Processing of a single `FacetCut` inside the loop of `_diamond_cut`:
immutability check, then either facet removal (empty selector list) or
selector registration (`bind_selectors`, then `register_post`, then
`_remove_selectors`). -/
def apply_cut (s : DiamondData) (facet_cut : FacetCut) : CutOutcome :=
  let code_hash := facet_cut.hash
  match handle_replace_immutable s code_hash with
  | some e => .err e s
  | none =>
    if facet_cut.selectors.isEmpty then
      match remove_facet s code_hash with
      | none => .trap
      | some s1 => .ok s1
    else
      match bind_selectors code_hash s facet_cut.selectors with
      | .err e s1 => .err e s1
      | .ok s1 =>
        match remove_selectors (register_post s1 facet_cut) facet_cut with
        | none => .trap
        | some s4 => .ok s4

/-- The main loop of `_diamond_cut` over the batch, threading the mutated
state and propagating the first error or panic. -/
def diamond_cut_loop : DiamondData → List FacetCut → CutOutcome
  | s, [] => .ok s
  | s, facet_cut :: rest =>
    match apply_cut s facet_cut with
    | .ok s1 => diamond_cut_loop s1 rest
    | o => o

/-- `_diamond_cut`: process the batch in order; on success emit the cut
event (default no-op) and, when `init` is present, flush and perform the
non-returning delegated init call. -/
def diamond_cut (s : DiamondData) (cuts : List FacetCut) (init : Option InitCall) : CutOutcome :=
  match diamond_cut_loop s cuts with
  | .ok s1 =>
    match init with
    | some call => .tailInit call s1
    | none => .ok s1
  | o => o

/-- Outcome of `_fallback` for a decoded selector: a panic
(`Function is not registered`) when the selector is unrouted, otherwise a
tail delegate call into the routed code hash. `_fallback` takes `&self`,
so it never mutates the route table. -/
inductive FallbackOutcome where
  | unregistered
  | delegate (code : Hash)
deriving DecidableEq

/-- `_fallback`: look up the decoded selector and either panic
(unregistered) or delegate to the routed facet. -/
def fallback (s : DiamondData) (selector : Selector) : FallbackOutcome :=
  match s.selector_to_hash selector with
  | none => .unregistered
  | some code => .delegate code

/-- The bidirectional-mapping invariant of the spec: a selector is routed
to `h` exactly when it occurs in the stored selector list of `h`, and every
stored selector list is non-empty. -/
def Consistent (s : DiamondData) : Prop :=
  (∀ sel h, s.selector_to_hash sel = some h ↔ sel ∈ (s.hash_to_selectors h).getD []) ∧
  (∀ h l, s.hash_to_selectors h = some l → l ≠ [])

/-- Selector `sel` is routed to the own (frozen) code hash of the diamond and
occurs in the stored selector list of no other facet. In a `Consistent` state
this is equivalent to being routed to the frozen facet. -/
def FrozenRouted (s : DiamondData) (sel : Selector) : Prop :=
  s.selector_to_hash sel = some s.self_hash ∧
  ∀ b l, b ≠ s.self_hash → s.hash_to_selectors b = some l → sel ∉ l

/-- `o` terminated with post-state `s'` (normally or via the init tail
call) — i.e. it did not panic. -/
def CutOutcome.OutState (o : CutOutcome) (s' : DiamondData) : Prop :=
  o = .ok s' ∨ (∃ e, o = .err e s') ∨ ∃ c, o = .tailInit c s'

/-! Basic lemmas about the removal folds and the selector loop. -/

theorem remove_fold_s2h (l : List Selector) : ∀ (s : DiamondData) (x : Selector),
    (l.foldl remove_selector_step s).selector_to_hash x
      = if x ∈ l then none else s.selector_to_hash x := by
  induction l with
  | nil => intro s x; simp
  | cons a t ih =>
    intro s x
    simp only [List.foldl_cons, ih, List.mem_cons]
    by_cases hx : x ∈ t
    · simp [hx]
    · by_cases hxa : x = a
      · simp [hx, hxa, remove_selector_step]
      · simp [hx, hxa, remove_selector_step]

theorem remove_fold_h2s (l : List Selector) : ∀ (s : DiamondData),
    (l.foldl remove_selector_step s).hash_to_selectors = s.hash_to_selectors := by
  induction l with
  | nil => intro s; rfl
  | cons a t ih => intro s; simp only [List.foldl_cons, ih]; rfl

theorem remove_fold_self (l : List Selector) : ∀ (s : DiamondData),
    (l.foldl remove_selector_step s).self_hash = s.self_hash := by
  induction l with
  | nil => intro s; rfl
  | cons a t ih => intro s; simp only [List.foldl_cons, ih]; rfl

theorem remove_fold_events (l : List Selector) : ∀ (s : DiamondData),
    (l.foldl remove_selector_step s).events = s.events := by
  induction l with
  | nil => intro s; rfl
  | cons a t ih => intro s; simp only [List.foldl_cons, ih]; rfl

theorem remove_facet_post_s2h (s : DiamondData) (ch : Hash) (vec : List Selector) (x : Selector) :
    (remove_facet_post s ch vec).selector_to_hash x
      = if x ∈ vec then none else s.selector_to_hash x := by
  simp only [remove_facet_post, remove_fold_s2h]

theorem remove_facet_post_h2s (s : DiamondData) (ch : Hash) (vec : List Selector) (h : Hash) :
    (remove_facet_post s ch vec).hash_to_selectors h
      = if h = ch then none else s.hash_to_selectors h := by
  simp only [remove_facet_post, remove_fold_h2s]

theorem remove_facet_post_self (s : DiamondData) (ch : Hash) (vec : List Selector) :
    (remove_facet_post s ch vec).self_hash = s.self_hash := by
  simp only [remove_facet_post, remove_fold_self]

theorem remove_facet_post_events (s : DiamondData) (ch : Hash) (vec : List Selector) :
    (remove_facet_post s ch vec).events = s.events ++ [.onRemoveFacet ch] := by
  simp only [remove_facet_post, remove_fold_events]

theorem unused_fold_id (fc : FacetCut) (l : List Selector) :
    ∀ s : DiamondData, (∀ x ∈ l, x ∈ fc.selectors) → l.foldl (remove_unused_step fc) s = s := by
  induction l with
  | nil => intro s _; rfl
  | cons a t ih =>
    intro s h
    have ha : a ∈ fc.selectors := h a (by simp)
    simp only [List.foldl_cons, remove_unused_step, if_pos ha]
    exact ih s (fun x hx => h x (by simp [hx]))

theorem remove_selectors_register (s1 : DiamondData) (fc : FacetCut) :
    remove_selectors (register_post s1 fc) fc = some (register_post s1 fc) := by
  have hh : (register_post s1 fc).hash_to_selectors fc.hash = some fc.selectors := by
    simp [register_post]
  rw [remove_selectors, hh]
  exact congrArg some (unused_fold_id fc fc.selectors _ (fun x hx => hx))

theorem register_post_s2h (s1 : DiamondData) (fc : FacetCut) :
    (register_post s1 fc).selector_to_hash = s1.selector_to_hash := by
  rw [register_post]
  by_cases h : (s1.hash_to_selectors fc.hash).isNone <;> simp [h]

theorem register_post_h2s (s1 : DiamondData) (fc : FacetCut) (h : Hash) :
    (register_post s1 fc).hash_to_selectors h
      = if h = fc.hash then some fc.selectors else s1.hash_to_selectors h := by
  rw [register_post]
  by_cases hn : (s1.hash_to_selectors fc.hash).isNone <;> simp [hn]

theorem register_post_self (s1 : DiamondData) (fc : FacetCut) :
    (register_post s1 fc).self_hash = s1.self_hash := by
  rw [register_post]
  by_cases h : (s1.hash_to_selectors fc.hash).isNone <;> simp [h]

theorem register_post_events (s1 : DiamondData) (fc : FacetCut) :
    (register_post s1 fc).events
      = if (s1.hash_to_selectors fc.hash).isNone
        then s1.events ++ [.onAddFacet fc.hash] else s1.events := by
  rw [register_post]
  by_cases h : (s1.hash_to_selectors fc.hash).isNone <;> simp [h]

theorem bind_state_fields (ch : Hash) (l : List Selector) : ∀ s : DiamondData,
    ((bind_selectors ch s l).state).hash_to_selectors = s.hash_to_selectors ∧
    ((bind_selectors ch s l).state).self_hash = s.self_hash ∧
    ((bind_selectors ch s l).state).events = s.events := by
  induction l with
  | nil => intro s; exact ⟨rfl, rfl, rfl⟩
  | cons a t ih =>
    intro s
    rcases h : s.selector_to_hash a with _ | hh
    · simp only [bind_selectors, h]
      exact ih _
    · simp only [bind_selectors, h]
      by_cases he : hh = ch
      · simpa [he] using ih s
      · simp [he, BindResult.state]

theorem bind_preserves_some (ch : Hash) (l : List Selector) : ∀ (s : DiamondData) (x : Selector) (hx : Hash),
    s.selector_to_hash x = some hx →
    ((bind_selectors ch s l).state).selector_to_hash x = some hx := by
  induction l with
  | nil => intro s x hx h; exact h
  | cons a t ih =>
    intro s x hx hsx
    rcases h : s.selector_to_hash a with _ | hh
    · simp only [bind_selectors, h]
      apply ih
      have hxa : x ≠ a := fun hc => by rw [hc, h] at hsx; cases hsx
      simpa [hxa] using hsx
    · simp only [bind_selectors, h]
      by_cases he : hh = ch
      · simpa [he] using ih s x hx hsx
      · simpa [he, BindResult.state] using hsx

theorem bind_ok_mem (ch : Hash) (l : List Selector) : ∀ (s s1 : DiamondData),
    bind_selectors ch s l = .ok s1 → ∀ x ∈ l, s1.selector_to_hash x = some ch := by
  induction l with
  | nil => intro s s1 _ x hx; cases hx
  | cons a t ih =>
    intro s s1 hok x hx
    rcases h : s.selector_to_hash a with _ | hh
    · simp only [bind_selectors, h] at hok
      rcases List.mem_cons.mp hx with hxa | hxt
      · have := bind_preserves_some ch t
          { s with selector_to_hash := fun y => if y = a then some ch else s.selector_to_hash y }
          a ch (by simp)
        rw [hok] at this
        rw [hxa]; exact this
      · exact ih _ s1 hok x hxt
    · simp only [bind_selectors, h] at hok
      by_cases he : hh = ch
      · rw [if_pos he] at hok
        rcases List.mem_cons.mp hx with hxa | hxt
        · have := bind_preserves_some ch t s a ch (by rw [h, he])
          rw [hok] at this
          rw [hxa]; exact this
        · exact ih s s1 hok x hxt
      · rw [if_neg he] at hok; cases hok

theorem bind_all_free (ch : Hash) (l : List Selector) : ∀ s : DiamondData,
    (∀ x ∈ l, s.selector_to_hash x = none ∨ s.selector_to_hash x = some ch) →
    ∃ s1, bind_selectors ch s l = .ok s1 := by
  induction l with
  | nil => intro s _; exact ⟨s, rfl⟩
  | cons a t ih =>
    intro s hfree
    rcases hfree a (by simp) with ha | ha
    · simp only [bind_selectors, ha]
      apply ih
      intro x hx
      by_cases hxa : x = a
      · simp [hxa]
      · simpa [hxa] using hfree x (by simp [hx])
    · simp only [bind_selectors, ha, if_pos rfl]
      exact ih s (fun x hx => hfree x (by simp [hx]))

/-! Case equations for `apply_cut` and the batch loop. -/

theorem apply_cut_frozen_eq {s : DiamondData} {fc : FacetCut} (h : fc.hash = s.self_hash) :
    apply_cut s fc = .err .ImmutableFunction s := by
  simp only [apply_cut, handle_replace_immutable, if_pos h]

theorem apply_cut_remove_none {s : DiamondData} {fc : FacetCut}
    (h1 : fc.hash ≠ s.self_hash) (h2 : fc.selectors = [])
    (h3 : s.hash_to_selectors fc.hash = none) :
    apply_cut s fc = .trap := by
  simp only [apply_cut, handle_replace_immutable, if_neg h1, h2, List.isEmpty_nil, if_pos,
    remove_facet, h3]

theorem apply_cut_remove_some {s : DiamondData} {fc : FacetCut} {vec : List Selector}
    (h1 : fc.hash ≠ s.self_hash) (h2 : fc.selectors = [])
    (h3 : s.hash_to_selectors fc.hash = some vec) :
    apply_cut s fc = .ok (remove_facet_post s fc.hash vec) := by
  simp only [apply_cut, handle_replace_immutable, if_neg h1, h2, List.isEmpty_nil, if_pos,
    remove_facet, h3]

theorem apply_cut_bind_err {s s1 : DiamondData} {fc : FacetCut} {e : DiamondError}
    (h1 : fc.hash ≠ s.self_hash) (h2 : fc.selectors ≠ [])
    (hb : bind_selectors fc.hash s fc.selectors = .err e s1) :
    apply_cut s fc = .err e s1 := by
  have hne : fc.selectors.isEmpty = false := by
    cases hsel : fc.selectors with
    | nil => exact absurd hsel h2
    | cons a t => rfl
  simp only [apply_cut, handle_replace_immutable, if_neg h1, hne, hb]
  simp

theorem apply_cut_bind_ok {s s1 : DiamondData} {fc : FacetCut}
    (h1 : fc.hash ≠ s.self_hash) (h2 : fc.selectors ≠ [])
    (hb : bind_selectors fc.hash s fc.selectors = .ok s1) :
    apply_cut s fc = .ok (register_post s1 fc) := by
  have hne : fc.selectors.isEmpty = false := by
    cases hsel : fc.selectors with
    | nil => exact absurd hsel h2
    | cons a t => rfl
  simp only [apply_cut, handle_replace_immutable, if_neg h1, hne, hb, remove_selectors_register]
  simp

theorem apply_cut_cases (s : DiamondData) (fc : FacetCut) :
    (∃ s1, apply_cut s fc = .ok s1) ∨ (∃ e s1, apply_cut s fc = .err e s1) ∨
      apply_cut s fc = .trap := by
  by_cases h1 : fc.hash = s.self_hash
  · exact Or.inr (Or.inl ⟨.ImmutableFunction, s, apply_cut_frozen_eq h1⟩)
  · by_cases h2 : fc.selectors = []
    · rcases h3 : s.hash_to_selectors fc.hash with _ | vec
      · exact Or.inr (Or.inr (apply_cut_remove_none h1 h2 h3))
      · exact Or.inl ⟨_, apply_cut_remove_some h1 h2 h3⟩
    · cases hb : bind_selectors fc.hash s fc.selectors with
      | ok s1 => exact Or.inl ⟨_, apply_cut_bind_ok h1 h2 hb⟩
      | err e s1 => exact Or.inr (Or.inl ⟨e, s1, apply_cut_bind_err h1 h2 hb⟩)

theorem diamond_cut_none (s : DiamondData) (cuts : List FacetCut) :
    diamond_cut s cuts none = diamond_cut_loop s cuts := by
  unfold diamond_cut
  cases diamond_cut_loop s cuts <;> rfl

theorem diamond_cut_loop_cons_ok {s s1 : DiamondData} {fc : FacetCut} (rest : List FacetCut)
    (h : apply_cut s fc = .ok s1) :
    diamond_cut_loop s (fc :: rest) = diamond_cut_loop s1 rest := by
  rw [diamond_cut_loop, h]

theorem diamond_cut_loop_cons_err {s s1 : DiamondData} {fc : FacetCut} {e : DiamondError}
    (rest : List FacetCut) (h : apply_cut s fc = .err e s1) :
    diamond_cut_loop s (fc :: rest) = .err e s1 := by
  rw [diamond_cut_loop, h]

theorem diamond_cut_loop_cons_trap {s : DiamondData} {fc : FacetCut} (rest : List FacetCut)
    (h : apply_cut s fc = .trap) :
    diamond_cut_loop s (fc :: rest) = .trap := by
  rw [diamond_cut_loop, h]

theorem diamond_cut_loop_append (l1 l2 : List FacetCut) : ∀ s : DiamondData,
    diamond_cut_loop s (l1 ++ l2)
      = match diamond_cut_loop s l1 with
        | .ok s1 => diamond_cut_loop s1 l2
        | o => o := by
  induction l1 with
  | nil => intro s; rfl
  | cons fc t ih =>
    intro s
    rcases apply_cut_cases s fc with ⟨s1, h⟩ | ⟨e, s1, h⟩ | h
    · rw [List.cons_append, diamond_cut_loop_cons_ok (t ++ l2) h,
        diamond_cut_loop_cons_ok t h, ih]
    · rw [List.cons_append, diamond_cut_loop_cons_err (t ++ l2) h,
        diamond_cut_loop_cons_err t h]
    · rw [List.cons_append, diamond_cut_loop_cons_trap (t ++ l2) h,
        diamond_cut_loop_cons_trap t h]

/-! Preservation of the frozen-module routes across cut processing. -/

theorem apply_cut_preserves (s : DiamondData) (fc : FacetCut) (sel : Selector) (s' : DiamondData)
    (h : (apply_cut s fc).OutState s') :
    s'.self_hash = s.self_hash ∧ (FrozenRouted s sel → FrozenRouted s' sel) := by
  by_cases h1 : fc.hash = s.self_hash
  · rw [apply_cut_frozen_eq h1] at h
    rcases h with h | ⟨e, h⟩ | ⟨cal, h⟩ <;> cases h
    exact ⟨rfl, id⟩
  · by_cases h2 : fc.selectors = []
    · rcases h3 : s.hash_to_selectors fc.hash with _ | vec
      · rw [apply_cut_remove_none h1 h2 h3] at h
        rcases h with h | ⟨e, h⟩ | ⟨cal, h⟩ <;> cases h
      · rw [apply_cut_remove_some h1 h2 h3] at h
        rcases h with h | ⟨e, h⟩ | ⟨cal, h⟩ <;> cases h
        refine ⟨remove_facet_post_self s fc.hash vec, fun hF => ?_⟩
        have hsel_vec : sel ∉ vec := hF.2 fc.hash vec h1 h3
        constructor
        · rw [remove_facet_post_s2h, if_neg hsel_vec, remove_facet_post_self]
          exact hF.1
        · intro b l hb hbl
          rw [remove_facet_post_h2s] at hbl
          rw [remove_facet_post_self] at hb
          by_cases hbc : b = fc.hash
          · rw [if_pos hbc] at hbl; cases hbl
          · rw [if_neg hbc] at hbl
            exact hF.2 b l hb hbl
    · cases hb : bind_selectors fc.hash s fc.selectors with
      | err e s1 =>
        rw [apply_cut_bind_err h1 h2 hb] at h
        rcases h with h | ⟨e', h⟩ | ⟨cal, h⟩
        rotate_left 2
        · cases h
        · cases h
        obtain ⟨he, hs⟩ := CutOutcome.err.inj h
        subst hs
        have hst : (bind_selectors fc.hash s fc.selectors).state = s1 := by rw [hb]; rfl
        obtain ⟨hh2s, hself, hev⟩ := bind_state_fields fc.hash fc.selectors s
        rw [hst] at hh2s hself hev
        refine ⟨hself, fun hF => ⟨?_, ?_⟩⟩
        · have := bind_preserves_some fc.hash fc.selectors s sel s.self_hash hF.1
          rw [hst] at this
          rw [hself]; exact this
        · intro b l hbne hbl
          rw [hh2s] at hbl
          rw [hself] at hbne
          exact hF.2 b l hbne hbl
      | ok s1 =>
        rw [apply_cut_bind_ok h1 h2 hb] at h
        rcases h with h | ⟨e', h⟩ | ⟨cal, h⟩ <;> cases h
        have hst : (bind_selectors fc.hash s fc.selectors).state = s1 := by rw [hb]; rfl
        obtain ⟨hh2s, hself, hev⟩ := bind_state_fields fc.hash fc.selectors s
        rw [hst] at hh2s hself hev
        refine ⟨by rw [register_post_self, hself], fun hF => ?_⟩
        have hsel1 : s1.selector_to_hash sel = some s.self_hash := by
          have := bind_preserves_some fc.hash fc.selectors s sel s.self_hash hF.1
          rw [hst] at this; exact this
        constructor
        · rw [register_post_s2h, register_post_self, hself]
          exact hsel1
        · intro b l hbne hbl
          rw [register_post_h2s] at hbl
          rw [register_post_self, hself] at hbne
          by_cases hbc : b = fc.hash
          · rw [if_pos hbc] at hbl
            cases hbl
            intro hmem
            have := bind_ok_mem fc.hash fc.selectors s s1 hb sel hmem
            rw [hsel1] at this
            exact h1 ((Option.some_inj.mp this).symm)
          · rw [if_neg hbc] at hbl
            rw [hh2s] at hbl
            exact hF.2 b l hbne hbl

theorem diamond_cut_loop_preserves (sel : Selector) (cuts : List FacetCut) :
    ∀ (s s' : DiamondData), (diamond_cut_loop s cuts).OutState s' →
      s'.self_hash = s.self_hash ∧ (FrozenRouted s sel → FrozenRouted s' sel) := by
  induction cuts with
  | nil =>
    intro s s' h
    rcases h with h | ⟨e, h⟩ | ⟨cal, h⟩ <;> cases h
    exact ⟨rfl, id⟩
  | cons fc rest ih =>
    intro s s' h
    rcases apply_cut_cases s fc with ⟨s1, h1⟩ | ⟨e, s1, h1⟩ | h1
    · rw [diamond_cut_loop_cons_ok rest h1] at h
      obtain ⟨hself1, hfr1⟩ := apply_cut_preserves s fc sel s1 (Or.inl h1)
      obtain ⟨hself2, hfr2⟩ := ih s1 s' h
      exact ⟨hself2.trans hself1, fun hF => hfr2 (hfr1 hF)⟩
    · rw [diamond_cut_loop_cons_err rest h1] at h
      rcases h with h | ⟨e', h⟩ | ⟨cal, h⟩ <;> cases h
      exact apply_cut_preserves s fc sel s' (Or.inr (Or.inl ⟨e, h1⟩))
    · rw [diamond_cut_loop_cons_trap rest h1] at h
      rcases h with h | ⟨e', h⟩ | ⟨cal, h⟩ <;> cases h

theorem diamond_cut_OutState {s s' : DiamondData} {cuts : List FacetCut} {init : Option InitCall}
    (h : (diamond_cut s cuts init).OutState s') :
    (diamond_cut_loop s cuts).OutState s' := by
  unfold diamond_cut at h
  cases hl : diamond_cut_loop s cuts with
  | ok s1 =>
    rw [hl] at h
    cases init with
    | none =>
      rcases h with h | ⟨e, h⟩ | ⟨cal, h⟩ <;> cases h
      exact Or.inl rfl
    | some call =>
      rcases h with h | ⟨e, h⟩ | ⟨cal, h⟩ <;> cases h
      exact Or.inl rfl
  | err e s1 =>
    rw [hl] at h
    exact h
  | trap =>
    rw [hl] at h
    exact h
  | tailInit cal s1 =>
    rw [hl] at h
    exact h

theorem apply_cut_self_ok {s s1 : DiamondData} {fc : FacetCut} (h : apply_cut s fc = .ok s1) :
    s1.self_hash = s.self_hash :=
  (apply_cut_preserves s fc 0 s1 (Or.inl h)).1

theorem diamond_cut_loop_no_ok : ∀ (cuts : List FacetCut) (s : DiamondData),
    (∃ c ∈ cuts, c.hash = s.self_hash) → ∀ s', diamond_cut_loop s cuts ≠ .ok s' := by
  intro cuts
  induction cuts with
  | nil =>
    rintro s ⟨c, hc, _⟩ s' _
    exact absurd hc (List.not_mem_nil c)
  | cons fc rest ih =>
    rintro s ⟨c, hc, hch⟩ s' hok
    rcases List.mem_cons.mp hc with rfl | hcr
    · rw [diamond_cut_loop_cons_err rest (apply_cut_frozen_eq hch)] at hok
      cases hok
    · rcases apply_cut_cases s fc with ⟨s1, h1⟩ | ⟨e, s1, h1⟩ | h1
      · rw [diamond_cut_loop_cons_ok rest h1] at hok
        exact ih s1 ⟨c, hcr, by rw [apply_cut_self_ok h1]; exact hch⟩ s' hok
      · rw [diamond_cut_loop_cons_err rest h1] at hok; cases hok
      · rw [diamond_cut_loop_cons_trap rest h1] at hok; cases hok

theorem apply_cut_nonempty_no_trap {s : DiamondData} {fc : FacetCut} (h2 : fc.selectors ≠ []) :
    apply_cut s fc ≠ .trap := by
  by_cases h1 : fc.hash = s.self_hash
  · rw [apply_cut_frozen_eq h1]; intro h; cases h
  · cases hb : bind_selectors fc.hash s fc.selectors with
    | ok s1 => rw [apply_cut_bind_ok h1 h2 hb]; intro h; cases h
    | err e s1 => rw [apply_cut_bind_err h1 h2 hb]; intro h; cases h

theorem diamond_cut_loop_nonempty_normal : ∀ (cuts : List FacetCut) (s : DiamondData),
    (∀ c ∈ cuts, c.selectors ≠ []) → (diamond_cut_loop s cuts).normal = true := by
  intro cuts
  induction cuts with
  | nil => intro s _; rfl
  | cons fc rest ih =>
    intro s hne
    rcases apply_cut_cases s fc with ⟨s1, h1⟩ | ⟨e, s1, h1⟩ | h1
    · rw [diamond_cut_loop_cons_ok rest h1]
      exact ih s1 (fun c hc => hne c (by simp [hc]))
    · rw [diamond_cut_loop_cons_err rest h1]; rfl
    · exact absurd h1 (apply_cut_nonempty_no_trap (hne fc (by simp)))

/-! Concrete states used by the claim witnesses and counterexamples. -/

/-- An empty route table whose own (frozen) code hash is `100`. -/
def emptyDiamond : DiamondData where
  selector_to_hash := fun _ => none
  hash_to_selectors := fun _ => none
  self_hash := 100
  events := []

/-- Facet `10` serving selectors `1` and `2`; frozen hash `100`. -/
def c2_pre : DiamondData where
  selector_to_hash := fun x => if x = 1 ∨ x = 2 then some 10 else none
  hash_to_selectors := fun h => if h = 10 then some [1, 2] else none
  self_hash := 100
  events := []

/-- Facet `10` serving selector `1`; frozen hash `100`. -/
def c5_w : DiamondData where
  selector_to_hash := fun x => if x = 1 then some 10 else none
  hash_to_selectors := fun h => if h = 10 then some [1] else none
  self_hash := 100
  events := []

/-! Claim C1. -/

/-- Claim C1 as stated is false: in the batch
`[{10, [1]}, {frozen, []}]` run from the empty table, the first cut is
applied successfully, the second fails with `ImmutableFunction`, and the
error state still contains the binding `1 ↦ 10` made by the first cut,
so the post-state differs from the pre-state. -/
theorem C1_counterexample :
    (diamond_cut emptyDiamond [⟨10, [1]⟩, ⟨100, []⟩] none).errOf = some .ImmutableFunction ∧
    ((diamond_cut emptyDiamond [⟨10, [1]⟩, ⟨100, []⟩] none).stateD emptyDiamond).selector_to_hash 1
      = some 10 ∧
    emptyDiamond.selector_to_hash 1 = none := by decide

/-- Claim C1, amended: an error returned by `_diamond_cut` does not roll
back mutations already performed; the post-state equals the pre-state only
when the failure happens before any mutation — in particular, whenever the
first cut of the batch targets the frozen module, the call returns
`Err(ImmutableFunction)` with the route table exactly the pre-state. -/
theorem C1_error_before_mutation (s : DiamondData) (c : FacetCut) (rest : List FacetCut)
    (h : c.hash = s.self_hash) :
    diamond_cut s (c :: rest) none = .err .ImmutableFunction s := by
  rw [diamond_cut_none, diamond_cut_loop_cons_err rest (apply_cut_frozen_eq h)]

/-- Witness for `C1_error_before_mutation` at a concrete input. -/
theorem C1_witness :
    diamond_cut emptyDiamond [⟨100, []⟩] none = .err .ImmutableFunction emptyDiamond :=
  C1_error_before_mutation emptyDiamond ⟨100, []⟩ [] rfl

/-! Claim C2. -/

/-- Claim C2 fails on the code: from facet `10` bound to `[1, 2]`, the cut
`{10, [1]}` succeeds, stores `hash_to_selectors[10] = [1]`, but leaves the
stale binding `2 ↦ 10` in `selector_to_hash`, because `_remove_selectors`
is called after `hash_to_selectors` has already been overwritten with the
new list and therefore never removes anything. The spec (and the comment
in the source) requires `lookup(2) = none`. -/
theorem C2_stale_selector_bug :
    (diamond_cut c2_pre [⟨10, [1]⟩] none).isOk = true ∧
    ((diamond_cut c2_pre [⟨10, [1]⟩] none).stateD c2_pre).hash_to_selectors 10 = some [1] ∧
    ((diamond_cut c2_pre [⟨10, [1]⟩] none).stateD c2_pre).selector_to_hash 2 = some 10 := by
  decide

/-! Claim C3. -/

/-- State after binding facet `10` to `[1, 2]` starting from the empty
table. -/
def c3_s1 : DiamondData :=
  (diamond_cut emptyDiamond [⟨10, [1, 2]⟩] none).stateD emptyDiamond

/-- State after the further successful cut `{10, [1]}`. -/
def c3_s2 : DiamondData :=
  (diamond_cut c3_s1 [⟨10, [1]⟩] none).stateD c3_s1

/-- Claim C3 fails on the code: the bidirectional invariant is not
preserved by successful cuts. Starting from the consistent empty table,
the two successful batches `[{10, [1, 2]}]` and then `[{10, [1]}]` reach a
state where `selector_to_hash 2 = some 10` but `2` is not in
`hash_to_selectors[10] = [1]`. -/
theorem C3_invariant_broken :
    Consistent emptyDiamond ∧
    (diamond_cut emptyDiamond [⟨10, [1, 2]⟩] none).isOk = true ∧
    (diamond_cut c3_s1 [⟨10, [1]⟩] none).isOk = true ∧
    ¬ Consistent c3_s2 := by
  refine ⟨⟨fun sel h => ?_, fun h l hl => ?_⟩, by decide, by decide, fun hc => ?_⟩
  · simp [emptyDiamond]
  · simp [emptyDiamond] at hl
  · have h2 := (hc.1 2 10).mp (by decide)
    exact absurd h2 (by decide)

/-! Claim C5. -/

/-- Core of the conflict-detection behaviour, shared by C5 and C7: a
single-cut batch whose first selector is bound to a different facet fails
with `ReplaceExisting` before performing any mutation. -/
theorem conflict_cut_err (s : DiamondData) (sel : Selector) (A B : Hash)
    (hbound : s.selector_to_hash sel = some A) (hBA : B ≠ A) (hBF : B ≠ s.self_hash) :
    diamond_cut s [⟨B, [sel]⟩] none = .err (.ReplaceExisting A) s := by
  have hb : bind_selectors B s [sel] = .err (.ReplaceExisting A) s := by
    simp only [bind_selectors, hbound]
    rw [if_neg (fun hca => hBA hca.symm)]
  have happ : apply_cut s ⟨B, [sel]⟩ = .err (.ReplaceExisting A) s :=
    apply_cut_bind_err hBF (by simp) hb
  rw [diamond_cut_none, diamond_cut_loop_cons_err [] happ]

/-- Claim C5: if selector `sel` is bound to facet `A`, a cut
`{B, [sel]}` with `B ≠ A` and `B` not frozen fails with
`ReplaceExisting(A)` and leaves the state unchanged, so `sel` remains
bound to `A`. -/
theorem C5_replace_existing (s : DiamondData) (sel : Selector) (A B : Hash)
    (hbound : s.selector_to_hash sel = some A) (hBA : B ≠ A) (hBF : B ≠ s.self_hash) :
    diamond_cut s [⟨B, [sel]⟩] none = .err (.ReplaceExisting A) s ∧
    ((diamond_cut s [⟨B, [sel]⟩] none).stateD s).selector_to_hash sel = some A := by
  have h := conflict_cut_err s sel A B hbound hBA hBF
  refine ⟨h, ?_⟩
  rw [h]
  exact hbound

/-- Witness for `C5_replace_existing` at a concrete input. -/
theorem C5_witness :
    diamond_cut c5_w [⟨20, [1]⟩] none = .err (.ReplaceExisting 10) c5_w ∧
    ((diamond_cut c5_w [⟨20, [1]⟩] none).stateD c5_w).selector_to_hash 1 = some 10 :=
  C5_replace_existing c5_w 1 10 20 (by decide) (by decide) (by decide)

/-! Claim C6. -/

/-- Claim C6 as stated is false: a batch containing an empty-selector cut
naming a module with no current routes does not return an error — it
panics (`unwrap` of a missing `hash_to_selectors` entry in
`_remove_facet`). -/
theorem C6_counterexample :
    emptyDiamond.hash_to_selectors 5 = none ∧
    (diamond_cut emptyDiamond [⟨5, []⟩] none).normal = false ∧
    (diamond_cut emptyDiamond [⟨5, []⟩] none).isTrap = true := by decide

/-- Claim C6, amended: for every pre-state and every batch whose cuts all
have non-empty selector lists, `_diamond_cut` without an init call
terminates normally, with `Ok` or with an error (and `DiamondError` has
only the two kinds `ReplaceExisting` and `ImmutableFunction`); the panic
is reachable only through the empty-selector removal path. -/
theorem C6_no_abnormal_result (s : DiamondData) (cuts : List FacetCut)
    (h : ∀ c ∈ cuts, c.selectors ≠ []) :
    (diamond_cut s cuts none).normal = true := by
  rw [diamond_cut_none]
  exact diamond_cut_loop_nonempty_normal cuts s h

/-- Witness for `C6_no_abnormal_result` at a concrete input. -/
theorem C6_witness : (diamond_cut emptyDiamond [⟨5, [1]⟩] none).normal = true :=
  C6_no_abnormal_result emptyDiamond [⟨5, [1]⟩] (by decide)

/-! Claim C9. -/

/-- Claim C9: dispatch of a selector with no entry in `selector_to_hash`
fails fatally (the `Function is not registered` panic, surfaced as
`UnregisteredFunction`) and performs no delegated call; `_fallback` takes
`&self`, so it cannot change the route table. -/
theorem C9_unregistered_dispatch (s : DiamondData) (sel : Selector)
    (h : s.selector_to_hash sel = none) :
    fallback s sel = .unregistered ∧ ∀ code, fallback s sel ≠ .delegate code := by
  have hf : fallback s sel = .unregistered := by
    unfold fallback
    rw [h]
  exact ⟨hf, fun code hc => by rw [hf] at hc; cases hc⟩

/-- Witness for `C9_unregistered_dispatch` at a concrete input. -/
theorem C9_witness :
    fallback emptyDiamond 9 = .unregistered ∧
    ∀ code, fallback emptyDiamond 9 ≠ .delegate code :=
  C9_unregistered_dispatch emptyDiamond 9 rfl

/-! Claim C10. -/

/-- Claim C10 as stated is false in one corner: when the unregistered
module is the frozen module itself, the batch `[{frozen, []}]` does not
panic — the immutability check fires first and the call returns
`Err(ImmutableFunction)`. -/
theorem C10_counterexample :
    emptyDiamond.hash_to_selectors 100 = none ∧
    (diamond_cut emptyDiamond [⟨100, []⟩] none).isTrap = false ∧
    (diamond_cut emptyDiamond [⟨100, []⟩] none).errOf = some .ImmutableFunction := by decide

/-- Claim C10, amended: for every non-frozen module `M` with no
`hash_to_selectors` entry, any batch that reaches the cut `{M, []}` — in
particular any batch beginning with it — panics in `_remove_facet`
instead of succeeding as a no-op. -/
theorem C10_remove_unregistered_traps (s : DiamondData) (M : Hash) (rest : List FacetCut)
    (hMF : M ≠ s.self_hash) (hMreg : s.hash_to_selectors M = none) :
    diamond_cut s (⟨M, []⟩ :: rest) none = .trap := by
  rw [diamond_cut_none, diamond_cut_loop_cons_trap rest (apply_cut_remove_none hMF rfl hMreg)]

/-- Witness for `C10_remove_unregistered_traps` at a concrete input. -/
theorem C10_witness : diamond_cut emptyDiamond [⟨5, []⟩] none = .trap :=
  C10_remove_unregistered_traps emptyDiamond 5 [] (by decide) rfl

/-! Claim C4. -/

/-- Selector `1` bound to facet `20`; frozen hash `100`. -/
def c4_pre : DiamondData where
  selector_to_hash := fun x => if x = 1 then some 20 else none
  hash_to_selectors := fun h => if h = 20 then some [1] else none
  self_hash := 100
  events := []

/-- A diamond whose frozen facet `7` serves selector `1`. -/
def c4_w : DiamondData where
  selector_to_hash := fun x => if x = 1 then some 7 else none
  hash_to_selectors := fun h => if h = 7 then some [1] else none
  self_hash := 7
  events := []

/-- Claim C4 as stated is false in one corner: a batch containing a cut
targeting the frozen module need not fail with `ImmutableFunction` — an
earlier cut can fail first with a different error. Here the batch
`[{30, [1]}, {frozen, []}]` contains the frozen cut but fails with
`ReplaceExisting(20)` raised by its first cut. -/
theorem C4_counterexample :
    ((⟨100, []⟩ : FacetCut) ∈ [(⟨30, [1]⟩ : FacetCut), ⟨100, []⟩]) ∧
    (100 : Hash) = c4_pre.self_hash ∧
    (diamond_cut c4_pre [⟨30, [1]⟩, ⟨100, []⟩] none).errOf = some (.ReplaceExisting 20) := by
  decide

/-- Claim C4, amended: (i) when processing reaches a cut targeting the
frozen module — i.e. every earlier cut of the batch succeeded — the batch
fails with `ImmutableFunction`, whatever the selectors of that cut;
(ii) a batch containing a cut targeting the frozen module never returns
`Ok` (an earlier cut may fail first with another error, or panic);
(iii) in a consistent state, a selector routed to the frozen module
occurs in the stored list of no other facet; and (iv) such a selector
stays routed to the frozen module after any `_diamond_cut` call that
terminates with a state — successful or failed — so it is never rebound
and never removed. -/
theorem C4_frozen_protection :
    (∀ (s : DiamondData) (pre : List FacetCut) (c : FacetCut) (rest : List FacetCut)
        (s1 : DiamondData), diamond_cut_loop s pre = .ok s1 → c.hash = s.self_hash →
        diamond_cut s (pre ++ c :: rest) none = .err .ImmutableFunction s1) ∧
    (∀ (s : DiamondData) (cuts : List FacetCut), (∃ c ∈ cuts, c.hash = s.self_hash) →
        ∀ s', diamond_cut s cuts none ≠ .ok s') ∧
    (∀ (s : DiamondData) (sel : Selector), Consistent s →
        s.selector_to_hash sel = some s.self_hash → FrozenRouted s sel) ∧
    (∀ (s : DiamondData) (cuts : List FacetCut) (init : Option InitCall) (sel : Selector)
        (s' : DiamondData), FrozenRouted s sel → (diamond_cut s cuts init).OutState s' →
        s'.self_hash = s.self_hash ∧ FrozenRouted s' sel) := by
  refine ⟨?_, ?_, ?_, ?_⟩
  · intro s pre c rest s1 hpre hch
    rw [diamond_cut_none, diamond_cut_loop_append, hpre]
    have hch1 : c.hash = s1.self_hash := by
      rw [(diamond_cut_loop_preserves 0 pre s s1 (Or.inl hpre)).1]
      exact hch
    show diamond_cut_loop s1 (c :: rest) = _
    rw [diamond_cut_loop_cons_err rest (apply_cut_frozen_eq hch1)]
  · intro s cuts hex s' hok
    rw [diamond_cut_none] at hok
    exact diamond_cut_loop_no_ok cuts s hex s' hok
  · intro s sel hcons hsel
    refine ⟨hsel, fun b l hb hbl hmem => ?_⟩
    have hsb : s.selector_to_hash sel = some b := by
      apply (hcons.1 sel b).mpr
      rw [hbl]
      exact hmem
    rw [hsel] at hsb
    exact hb (Option.some_inj.mp hsb).symm
  · intro s cuts init sel s' hF hout
    obtain ⟨hself, hfr⟩ := diamond_cut_loop_preserves sel cuts s s' (diamond_cut_OutState hout)
    exact ⟨hself, hfr hF⟩

/-- Witness for `C4_frozen_protection`, every component instantiated at a
concrete input. -/
theorem C4_witness :
    diamond_cut c4_w [⟨7, [2]⟩] none = .err .ImmutableFunction c4_w ∧
    (∀ s', diamond_cut c4_w [⟨7, []⟩] none ≠ .ok s') ∧
    FrozenRouted c4_w 1 ∧
    (c4_w.self_hash = c4_w.self_hash ∧ FrozenRouted c4_w 1) := by
  have hcons : Consistent c4_w := by
    constructor
    · intro x h
      by_cases hx : x = 1 <;> by_cases hh : h = 7 <;>
        simp [c4_w, hx, hh, eq_comm]
    · intro h l hl
      by_cases hh : h = 7
      · simp only [c4_w, hh, if_pos] at hl
        rw [← Option.some_inj.mp hl]
        simp
      · simp [c4_w, hh] at hl
  have hfr : FrozenRouted c4_w 1 := C4_frozen_protection.2.2.1 c4_w 1 hcons (by decide)
  exact ⟨C4_frozen_protection.1 c4_w [] ⟨7, [2]⟩ [] c4_w rfl rfl,
         C4_frozen_protection.2.1 c4_w [⟨7, []⟩] ⟨⟨7, []⟩, by decide, rfl⟩,
         hfr,
         C4_frozen_protection.2.2.2 c4_w [] none 1 c4_w hfr (Or.inl rfl)⟩

/-! Claim C7. -/

/-- Claim C7: cuts are applied in the given order and later cuts observe
the effect of earlier cuts of the same batch. With `sel` bound to facet
`A` (and listed for `A`), the batch `[{A, []}, {B, [sel]}]` succeeds and
rebinds `sel` to `B`, while the batch `[{B, [sel]}]` alone fails with
`ReplaceExisting(A)`. -/
theorem C7_batch_order (s : DiamondData) (sel : Selector) (A B : Hash) (l : List Selector)
    (hbound : s.selector_to_hash sel = some A)
    (hreg : s.hash_to_selectors A = some l) (hmem : sel ∈ l)
    (hAF : A ≠ s.self_hash) (hBF : B ≠ s.self_hash) (hBA : B ≠ A) :
    (∃ s', diamond_cut s [⟨A, []⟩, ⟨B, [sel]⟩] none = .ok s' ∧
       s'.selector_to_hash sel = some B) ∧
    diamond_cut s [⟨B, [sel]⟩] none = .err (.ReplaceExisting A) s := by
  refine ⟨?_, conflict_cut_err s sel A B hbound hBA hBF⟩
  have h1 : apply_cut s ⟨A, []⟩ = .ok (remove_facet_post s A l) :=
    apply_cut_remove_some hAF rfl hreg
  set t := remove_facet_post s A l with ht
  have ht_self : t.self_hash = s.self_hash := remove_facet_post_self s A l
  have ht_sel : t.selector_to_hash sel = none := by
    rw [ht, remove_facet_post_s2h, if_pos hmem]
  have hb : bind_selectors B t [sel] = .ok
      { t with selector_to_hash := fun x => if x = sel then some B else t.selector_to_hash x } := by
    simp only [bind_selectors, ht_sel]
  set u := { t with selector_to_hash := fun x => if x = sel then some B else t.selector_to_hash x }
    with hu
  have h2 : apply_cut t ⟨B, [sel]⟩ = .ok (register_post u ⟨B, [sel]⟩) := by
    apply apply_cut_bind_ok ?_ (by simp) hb
    rw [ht_self]
    exact hBF
  refine ⟨register_post u ⟨B, [sel]⟩, ?_, ?_⟩
  · rw [diamond_cut_none, diamond_cut_loop_cons_ok [⟨B, [sel]⟩] h1,
      diamond_cut_loop_cons_ok [] h2]
    rfl
  · rw [register_post_s2h, hu]
    simp

/-- Witness for `C7_batch_order` at a concrete input. -/
theorem C7_witness :
    (∃ s', diamond_cut c5_w [⟨10, []⟩, ⟨20, [1]⟩] none = .ok s' ∧
       s'.selector_to_hash 1 = some 20) ∧
    diamond_cut c5_w [⟨20, [1]⟩] none = .err (.ReplaceExisting 10) c5_w :=
  C7_batch_order c5_w 1 10 20 [1] (by decide) (by decide) (by decide) (by decide) (by decide)
    (by decide)

/-! Claim C8. -/

/-- Claim C8: adding a previously unregistered facet `M` through one cut
with three selectors appends exactly one `onAddFacet M` event to the hook
trace (the `_on_add_facet` call site runs once, not once per selector);
fully deregistering `M` afterwards through an empty-selector cut appends
exactly one `onRemoveFacet M` event. -/
theorem C8_hooks_fire_once (s : DiamondData) (M : Hash) (a b c : Selector)
    (hMF : M ≠ s.self_hash) (hMreg : s.hash_to_selectors M = none)
    (ha : s.selector_to_hash a = none) (hb : s.selector_to_hash b = none)
    (hc : s.selector_to_hash c = none) :
    ∃ s', diamond_cut s [⟨M, [a, b, c]⟩] none = .ok s' ∧
      s'.events = s.events ++ [.onAddFacet M] ∧
      ∃ s'', diamond_cut s' [⟨M, []⟩] none = .ok s'' ∧
        s''.events = s'.events ++ [.onRemoveFacet M] := by
  have hfree : ∀ x ∈ [a, b, c], s.selector_to_hash x = none ∨ s.selector_to_hash x = some M := by
    intro x hx
    simp only [List.mem_cons, List.not_mem_nil, or_false] at hx
    rcases hx with rfl | rfl | rfl
    · exact Or.inl ha
    · exact Or.inl hb
    · exact Or.inl hc
  obtain ⟨s1, hok⟩ := bind_all_free M [a, b, c] s hfree
  obtain ⟨hh2s, hself, hev⟩ := bind_state_fields M [a, b, c] s
  rw [show (bind_selectors M s [a, b, c]).state = s1 from by rw [hok]; rfl] at hh2s hself hev
  have h1 : apply_cut s ⟨M, [a, b, c]⟩ = .ok (register_post s1 ⟨M, [a, b, c]⟩) :=
    apply_cut_bind_ok hMF (by simp) hok
  set s' := register_post s1 ⟨M, [a, b, c]⟩ with hs'
  have hs'_ev : s'.events = s.events ++ [.onAddFacet M] := by
    rw [hs']
    simp only [register_post_events, hh2s, hev]
    simp [hMreg]
  have hs'_self : s'.self_hash = s.self_hash := by
    rw [hs', register_post_self, hself]
  have hs'_h2sM : s'.hash_to_selectors M = some [a, b, c] := by
    rw [hs', register_post_h2s]
    simp
  have h2 : apply_cut s' ⟨M, []⟩ = .ok (remove_facet_post s' M [a, b, c]) := by
    apply apply_cut_remove_some ?_ rfl hs'_h2sM
    rw [hs'_self]
    exact hMF
  refine ⟨s', ?_, hs'_ev, remove_facet_post s' M [a, b, c], ?_, ?_⟩
  · rw [diamond_cut_none, diamond_cut_loop_cons_ok [] h1]
    rfl
  · rw [diamond_cut_none, diamond_cut_loop_cons_ok [] h2]
    rfl
  · rw [remove_facet_post_events]

/-- Witness for `C8_hooks_fire_once` at a concrete input. -/
theorem C8_witness :
    ∃ s', diamond_cut emptyDiamond [⟨10, [1, 2, 3]⟩] none = .ok s' ∧
      s'.events = emptyDiamond.events ++ [.onAddFacet 10] ∧
      ∃ s'', diamond_cut s' [⟨10, []⟩] none = .ok s'' ∧
        s''.events = s'.events ++ [.onRemoveFacet 10] :=
  C8_hooks_fire_once emptyDiamond 10 1 2 3 (by decide) rfl rfl rfl rfl

end Diamond
